import Mathlib

/-!
# TTL layer of a LevelDB-style key-value store: verified model

Shallow embedding of `utilities/ttl/db_ttl.h`: the timestamp codec, the
compaction-time expiration filter, the TTL merge operator and the TTL
iterator. Byte strings are modelled as `List Nat` with each byte below 256
(byte values only matter up to the fixed-width arithmetic, which is taken
modulo 2^8 per position by construction of the encoder), 32-bit machine
integers as `Int`/`Nat` with explicit reduction modulo 2^32 where the code
converts, and fallible operations (the wall clock) as explicit `Option`
parameters.

The declarations of `DBWithTTL` are in the header; bodies that live in the
accompanying `.cc` file are not part of the sources and are modelled from the
specification, each marked `Modelled from the spec:` in its doc comment. The
inline bodies (`TtlIterator`, `TtlMergeOperator::Merge`) are translated
directly from the header.
-/

/-- `DBWithTTL::kTSLength = sizeof(int32_t)`: width of the timestamp suffix. -/
def DBWithTTL.kTSLength : Nat := 4

/-- `DBWithTTL::kMinTimestamp = 1368146402` (05/09/2013 5:40PM GMT-8). -/
def DBWithTTL.kMinTimestamp : Int := 1368146402

/-- `DBWithTTL::kMaxTimestamp = 2147483647` (01/18/2038 7:14PM GMT-8). -/
def DBWithTTL.kMaxTimestamp : Int := 2147483647

/-- Reduction of a signed 32-bit integer to the unsigned 32-bit value with the
same bit pattern (the implicit `int32_t` → `uint32_t` conversion performed when
the code hands a timestamp to `EncodeFixed32`). -/
def uint32OfInt (t : Int) : Nat := (t % 4294967296).toNat

/-- Reinterpretation of an unsigned 32-bit value as a signed `int32_t`
(two's complement), the conversion performed when a decoded `uint32_t`
timestamp is stored into an `int32_t`. -/
def int32OfUInt32 (u : Nat) : Int :=
  if u % 4294967296 < 2147483648 then ((u % 4294967296 : Nat) : Int)
  else ((u % 4294967296 : Nat) : Int) - 4294967296

/-- Modelled from the spec: the body of `EncodeFixed32` (the engine's
fixed-width codec, `util/coding`) is not among the sources. Per spec §3/§4.1
a timestamp suffix is "a fixed 4-byte encoding of a signed 32-bit wall-clock
second count"; we fix the byte order as little-endian. Produces the four bytes
of `value mod 2^32`, least significant first. -/
def EncodeFixed32 (value : Nat) : List Nat :=
  [value % 256, value / 256 % 256, value / 65536 % 256, value / 16777216 % 256]

/-- Modelled from the spec: the body of `DecodeFixed32` (the engine's
fixed-width codec, `util/coding`) is not among the sources. Inverse of
`EncodeFixed32`: reads four little-endian bytes as an unsigned 32-bit value. -/
def DecodeFixed32 (bs : List Nat) : Nat :=
  bs.getD 0 0 + 256 * bs.getD 1 0 + 65536 * bs.getD 2 0 + 16777216 * bs.getD 3 0

/-- Modelled from the spec: the body of `DBWithTTL::AppendTS` is not among the
sources (only its declaration, db_ttl.h line 98). Per spec §4.1,
`Encode(buffer, timestamp)` "appends the 4-byte representation to `buffer`";
the timestamp argument stands for the wall-clock second count being stamped. -/
def DBWithTTL.AppendTS (val : List Nat) (t : Int) : List Nat :=
  val ++ EncodeFixed32 (uint32OfInt t)

/-- Modelled from the spec: the body of `DBWithTTL::StripTS` is not among the
sources (only its declaration, db_ttl.h line 102). Per spec §4.1,
`Strip(value)` "returns the value with its trailing 4 bytes removed". -/
def DBWithTTL.StripTS (str : List Nat) : List Nat :=
  str.take (str.length - DBWithTTL.kTSLength)

/-- Modelled from the spec: the decode step of the codec (spec §4.1,
`Decode(value) -> timestamp`, "reads the last 4 bytes of `value` as the
timestamp"); in the header this appears only through `DecodeFixed32` applied
to the last `kTSLength` bytes. The decoded `uint32_t` is reinterpreted as the
signed 32-bit second count. -/
def DBWithTTL.DecodeTS (value : List Nat) : Int :=
  int32OfUInt32 (DecodeFixed32 (value.drop (value.length - DBWithTTL.kTSLength)))

/-- Modelled from the spec: the body of `DBWithTTL::SanityCheckTimestamp` is
not among the sources (only its declaration, db_ttl.h line 100). Per spec
§4.1, validation "fails if `value.size() < 4` or if the decoded value lies
outside `[kMinTimestamp, kMaxTimestamp]`". Returns `true` for OK (C++ `Status::OK`),
`false` for the corruption failure. -/
def DBWithTTL.SanityCheckTimestamp (str : List Nat) : Bool :=
  decide (DBWithTTL.kTSLength ≤ str.length) &&
  decide (DBWithTTL.kMinTimestamp ≤ DBWithTTL.DecodeTS str) &&
  decide (DBWithTTL.DecodeTS str ≤ DBWithTTL.kMaxTimestamp)

/-- Modelled from the spec: the body of `DBWithTTL::IsStale` is not among the
sources (only its declaration, db_ttl.h line 96). Per spec §4.2 step 4,
`IsStale = (now - t) > ttl` with `t` the decoded timestamp of the value; the
current time, obtained in the code through the fallible `GetCurrentTime`, is
passed here explicitly. -/
def DBWithTTL.IsStale (value : List Nat) (ttl : Int) (now : Int) : Bool :=
  decide (now - DBWithTTL.DecodeTS value > ttl)

/-- Modelled from the spec: the body of `DBWithTTL::Filter` is not among the
sources (only its declaration, db_ttl.h lines 88-92). Per spec §4.2: keep when
TTL is negative; keep when timestamp validation fails; keep when the clock is
unavailable (`clock = none` models a failing `GetCurrentTime`); otherwise drop
exactly when stale. Returns `true` for Drop (the C++ filter's "remove" result)
and `false` for Keep. -/
def DBWithTTL.Filter (ttl : Int) (old_val : List Nat) (clock : Option Int) : Bool :=
  if ttl < 0 then false
  else if DBWithTTL.SanityCheckTimestamp old_val = false then false
  else
    match clock with
    | none => false
    | some now => DBWithTTL.IsStale old_val ttl now

/-! ## Codec lemmas -/

theorem encodeFixed32_length (value : Nat) : (EncodeFixed32 value).length = 4 := rfl

theorem decodeFixed32_encodeFixed32 (value : Nat) (h : value < 4294967296) :
    DecodeFixed32 (EncodeFixed32 value) = value := by
  simp only [EncodeFixed32, DecodeFixed32, List.getD_cons_zero, List.getD_cons_succ]
  omega

theorem appendTS_eq (val : List Nat) (t : Int) :
    DBWithTTL.AppendTS val t = val ++ EncodeFixed32 (uint32OfInt t) := rfl

theorem appendTS_length (val : List Nat) (t : Int) :
    (DBWithTTL.AppendTS val t).length = val.length + 4 := by
  simp [DBWithTTL.AppendTS, EncodeFixed32]

theorem stripTS_appendTS (val : List Nat) (t : Int) :
    DBWithTTL.StripTS (DBWithTTL.AppendTS val t) = val := by
  simp [DBWithTTL.StripTS, DBWithTTL.AppendTS, DBWithTTL.kTSLength, EncodeFixed32,
    List.take_left]

theorem uint32OfInt_of_range (t : Int) (h0 : 0 ≤ t) (h1 : t < 4294967296) :
    (uint32OfInt t : Int) = t := by
  unfold uint32OfInt
  omega

theorem decodeTS_appendTS (val : List Nat) (t : Int)
    (h0 : 0 ≤ t) (h1 : t < 2147483648) :
    DBWithTTL.DecodeTS (DBWithTTL.AppendTS val t) = t := by
  unfold DBWithTTL.DecodeTS DBWithTTL.AppendTS
  have hlen : (val ++ EncodeFixed32 (uint32OfInt t)).length - DBWithTTL.kTSLength
      = val.length := by
    simp [EncodeFixed32, DBWithTTL.kTSLength]
  rw [hlen, List.drop_left]
  have hu : uint32OfInt t < 4294967296 := by
    unfold uint32OfInt
    omega
  rw [decodeFixed32_encodeFixed32 _ hu]
  have ht : (uint32OfInt t : Int) = t := by
    unfold uint32OfInt
    omega
  unfold int32OfUInt32
  have hmod : uint32OfInt t % 4294967296 = uint32OfInt t := by
    omega
  rw [hmod, ht]
  have : uint32OfInt t < 2147483648 := by omega
  simp only [this, if_pos, ht]

/-! ## TtlMergeOperator (inline body, db_ttl.h lines 187-220)

The C++ `Merge` receives the key, an optional existing value, the new operand,
an output string `new_value` and a logger, and returns `void`; failures are
expressed only through `assert(false)` (a debug-build process abort; in a
release build execution continues past the assertion). We model:
  - the user merge operator as a function from the optional stripped existing
    value and the stripped operand to the merged payload (the C++ user
    operator writes its result into `new_value`);
  - the fallible `GetCurrentTime` as an `Option Int` argument (`none` = the
    clock call returned a non-OK status);
  - the result as a record carrying the final contents of `new_value` together
    with an `aborted` flag recording whether an `assert(false)` statement was
    reached (the key and the logger do not influence the result).
-/

/-- Outcome of `TtlMergeOperator::Merge`: the final contents of `new_value`,
and whether an `assert(false)` was reached on the way (debug-build abort). -/
structure MergeOut where
  aborted : Bool
  newValue : List Nat
deriving DecidableEq

/-- `TtlMergeOperator::Merge` (db_ttl.h lines 187-220), translated from the
inline body. Checks both inputs for the minimal timestamp length (reaching
`assert(false)` otherwise), strips the trailing `kTSLength` bytes from the
operand and from the existing value when present, invokes the user merge
operator on the stripped values, then appends `EncodeFixed32(curtime)` of the
current time to the result — or, when `GetCurrentTime` fails, reaches the
second `assert(false)` and appends nothing. -/
def TtlMergeOperator.Merge (user_merge_op : Option (List Nat) → List Nat → List Nat)
    (existing_value : Option (List Nat)) (value : List Nat)
    (clock : Option Int) : MergeOut :=
  let ts_len := DBWithTTL.kTSLength
  let malformed : Bool :=
    (match existing_value with
     | some ev => decide (ev.length < ts_len)
     | none => false) || decide (value.length < ts_len)
  let value_without_ts := value.take (value.length - ts_len)
  let user_result :=
    match existing_value with
    | some ev =>
        user_merge_op (some (ev.take (ev.length - ts_len))) value_without_ts
    | none => user_merge_op none value_without_ts
  match clock with
  | none => { aborted := true, newValue := user_result }
  | some curtime =>
      { aborted := malformed
        newValue := user_result ++ EncodeFixed32 (uint32OfInt curtime) }

/-! ## TtlIterator (inline body, db_ttl.h lines 118-177)

The wrapped engine iterator is abstract: an `IterOps σ` packages the
underlying cursor's operations over an opaque cursor-state type `σ`
(positioning moves are state transformers, observations are functions of the
state). `TtlIterator` holds exactly one such underlying cursor and delegates;
the only non-delegating members are `value` (strips the suffix) and
`timestamp` (decodes the last 4 bytes). -/

/-- Capability set of the underlying engine cursor (`leveldb::Iterator`):
positioning operations transform the opaque cursor state, observations read
it. `status` is abstracted as a value of an opaque type `ε`. -/
structure IterOps (σ ε : Type) where
  Valid : σ → Bool
  SeekToFirst : σ → σ
  SeekToLast : σ → σ
  Seek : List Nat → σ → σ
  Next : σ → σ
  Prev : σ → σ
  key : σ → List Nat
  value : σ → List Nat
  status : σ → ε

/-- `TtlIterator::Valid` (db_ttl.h line 130): `return iter_->Valid();`. -/
def TtlIterator.Valid (iter : IterOps σ ε) (s : σ) : Bool := iter.Valid s

/-- `TtlIterator::SeekToFirst` (line 134): `iter_->SeekToFirst();`. -/
def TtlIterator.SeekToFirst (iter : IterOps σ ε) (s : σ) : σ := iter.SeekToFirst s

/-- `TtlIterator::SeekToLast` (line 138): `iter_->SeekToLast();`. -/
def TtlIterator.SeekToLast (iter : IterOps σ ε) (s : σ) : σ := iter.SeekToLast s

/-- `TtlIterator::Seek` (line 142): `iter_->Seek(target);`. -/
def TtlIterator.Seek (iter : IterOps σ ε) (target : List Nat) (s : σ) : σ :=
  iter.Seek target s

/-- `TtlIterator::Next` (line 146): `iter_->Next();`. -/
def TtlIterator.Next (iter : IterOps σ ε) (s : σ) : σ := iter.Next s

/-- `TtlIterator::Prev` (line 150): `iter_->Prev();`. -/
def TtlIterator.Prev (iter : IterOps σ ε) (s : σ) : σ := iter.Prev s

/-- `TtlIterator::key` (line 154): `return iter_->key();`. -/
def TtlIterator.key (iter : IterOps σ ε) (s : σ) : List Nat := iter.key s

/-- `TtlIterator::status` (line 171): `return iter_->status();`. -/
def TtlIterator.status (iter : IterOps σ ε) (s : σ) : ε := iter.status s

/-- Bounds-explicit read of four little-endian bytes of `v` starting at index
`p`: the model of `DecodeFixed32(p)` as a raw memory read. A read outside the
list is the model's image of the out-of-bounds pointer access and yields
`none`. -/
def decodeFixed32From (v : List Nat) (p : Nat) : Option Nat :=
  match v.get? p, v.get? (p + 1), v.get? (p + 2), v.get? (p + 3) with
  | some b0, some b1, some b2, some b3 =>
      some (b0 + 256 * b1 + 65536 * b2 + 16777216 * b3)
  | _, _, _, _ => none

/-- `TtlIterator::timestamp` (db_ttl.h lines 158-161):
`DecodeFixed32(iter_->value().data() + iter_->value().size() - kTSLength)`,
with no length or range validation; the decoded `uint32_t` is returned as
`int32_t`. The out-of-bounds read (pointer arithmetic below the buffer when
the value is shorter than `kTSLength`) surfaces as `none`. -/
def TtlIterator.timestamp (iter : IterOps σ ε) (s : σ) : Option Int :=
  (decodeFixed32From (iter.value s)
    ((iter.value s).length - DBWithTTL.kTSLength)).map int32OfUInt32

/-- `TtlIterator::value` (db_ttl.h lines 163-169): returns the underlying
value with `size_ -= kTSLength` (an `assert` checks `SanityCheckTimestamp`;
the slice itself performs no validation). -/
def TtlIterator.value (iter : IterOps σ ε) (s : σ) : List Nat :=
  (iter.value s).take ((iter.value s).length - DBWithTTL.kTSLength)

/-- A positioning request on a cursor: the operation alphabet over which
delegation is compared. -/
inductive CursorOp where
  | seekToFirst
  | seekToLast
  | seek (target : List Nat)
  | next
  | prev
deriving DecidableEq

/-- One positioning step on the underlying cursor. -/
def IterOps.applyOp (iter : IterOps σ ε) (s : σ) : CursorOp → σ
  | .seekToFirst => iter.SeekToFirst s
  | .seekToLast => iter.SeekToLast s
  | .seek target => iter.Seek target s
  | .next => iter.Next s
  | .prev => iter.Prev s

/-- Running a sequence of positioning requests directly on the underlying
cursor. -/
def IterOps.runOps (iter : IterOps σ ε) (s : σ) : List CursorOp → σ
  | [] => s
  | op :: rest => iter.runOps (iter.applyOp s op) rest

/-- One positioning step through the `TtlIterator` wrapper, dispatching to the
wrapper's methods. -/
def TtlIterator.applyOp (iter : IterOps σ ε) (s : σ) : CursorOp → σ
  | .seekToFirst => TtlIterator.SeekToFirst iter s
  | .seekToLast => TtlIterator.SeekToLast iter s
  | .seek target => TtlIterator.Seek iter target s
  | .next => TtlIterator.Next iter s
  | .prev => TtlIterator.Prev iter s

/-- Running a sequence of positioning requests through the `TtlIterator`
wrapper. -/
def TtlIterator.runOps (iter : IterOps σ ε) (s : σ) : List CursorOp → σ
  | [] => s
  | op :: rest => TtlIterator.runOps iter (TtlIterator.applyOp iter s op) rest

/-! ## Helper lemmas shared by the claims -/

theorem take_sub_four_appendTS (val : List Nat) (t : Int) :
    (DBWithTTL.AppendTS val t).take
      ((DBWithTTL.AppendTS val t).length - DBWithTTL.kTSLength) = val :=
  stripTS_appendTS val t

theorem sanityCheckTimestamp_appendTS (v : List Nat) (t : Int)
    (hmin : DBWithTTL.kMinTimestamp ≤ t) (hmax : t ≤ DBWithTTL.kMaxTimestamp) :
    DBWithTTL.SanityCheckTimestamp (DBWithTTL.AppendTS v t) = true := by
  have h0 : (0 : Int) ≤ t := by
    unfold DBWithTTL.kMinTimestamp at hmin
    omega
  have h1 : t < 2147483648 := by
    unfold DBWithTTL.kMaxTimestamp at hmax
    omega
  unfold DBWithTTL.SanityCheckTimestamp
  rw [decodeTS_appendTS v t h0 h1, appendTS_length]
  simp only [Bool.and_eq_true, decide_eq_true_eq]
  refine ⟨⟨?_, hmin⟩, hmax⟩
  unfold DBWithTTL.kTSLength
  omega

/-! ## Claims -/

/-- Claim C1: for a stored value stamped with a timestamp `t` in the valid
window, a configured TTL ≥ 0 and a successfully read current time `now`, the
compaction filter drops the value iff `now - t > ttl` (strictly greater); a
value exactly `ttl` seconds old is kept. -/
theorem DBWithTTL.filter_drops_iff_strictly_stale (v : List Nat) (t ttl now : Int)
    (hmin : DBWithTTL.kMinTimestamp ≤ t) (hmax : t ≤ DBWithTTL.kMaxTimestamp)
    (httl : 0 ≤ ttl) :
    DBWithTTL.Filter ttl (DBWithTTL.AppendTS v t) (some now) = true ↔
      now - t > ttl := by
  have h0 : (0 : Int) ≤ t := by
    unfold DBWithTTL.kMinTimestamp at hmin
    omega
  have h1 : t < 2147483648 := by
    unfold DBWithTTL.kMaxTimestamp at hmax
    omega
  have hsane := sanityCheckTimestamp_appendTS v t hmin hmax
  unfold DBWithTTL.Filter
  rw [if_neg (by omega : ¬ ttl < 0), hsane]
  simp only [Bool.true_eq_false, if_false]
  unfold DBWithTTL.IsStale
  rw [decodeTS_appendTS v t h0 h1]
  exact decide_eq_true_iff

/-- Witness for C1 at TTL = 100: a value stamped 101 seconds ago is dropped
(and the boundary is strict). -/
theorem DBWithTTL.filter_drops_iff_strictly_stale_witness :
    DBWithTTL.kMinTimestamp ≤ (1368146402 : Int) ∧
    (1368146402 : Int) ≤ DBWithTTL.kMaxTimestamp ∧
    (0 : Int) ≤ 100 ∧
    (DBWithTTL.Filter 100 (DBWithTTL.AppendTS [] 1368146402)
        (some 1368146503) = true ↔ (1368146503 : Int) - 1368146402 > 100) :=
  ⟨by decide, by decide, by decide,
    DBWithTTL.filter_drops_iff_strictly_stale [] 1368146402 100 1368146503
      (by decide) (by decide) (by decide)⟩

/-- Claim C3: the compaction filter keeps every value whose timestamp fails
validation, and keeps every value when reading the current time fails; it
never drops under corruption or clock uncertainty. -/
theorem DBWithTTL.filter_keeps_on_corruption_or_clock_failure
    (ttl : Int) (value : List Nat) (clock : Option Int)
    (h : DBWithTTL.SanityCheckTimestamp value = false ∨ clock = none) :
    DBWithTTL.Filter ttl value clock = false := by
  unfold DBWithTTL.Filter
  rcases h with h | h
  · rw [h]
    simp
  · subst h
    split
    · rfl
    · split
      · rfl
      · rfl

/-- Witness for C3: a 3-byte value (too short to carry a timestamp) is kept by
the filter. -/
theorem DBWithTTL.filter_keeps_on_corruption_or_clock_failure_witness :
    (DBWithTTL.SanityCheckTimestamp [0, 1, 2] = false ∨
      (some (2000000000 : Int) : Option Int) = none) ∧
    DBWithTTL.Filter 100 [0, 1, 2] (some 2000000000) = false :=
  ⟨Or.inl (by decide),
    DBWithTTL.filter_keeps_on_corruption_or_clock_failure 100 [0, 1, 2]
      (some 2000000000) (Or.inl (by decide))⟩

/-- Claim C6: a negative configured TTL disables expiration: the filter keeps
every value, whatever its timestamp. -/
theorem DBWithTTL.filter_keeps_when_ttl_negative
    (ttl : Int) (value : List Nat) (clock : Option Int) (h : ttl < 0) :
    DBWithTTL.Filter ttl value clock = false := by
  unfold DBWithTTL.Filter
  rw [if_pos h]

/-- Witness for C6: TTL = -1 keeps a value stamped at `kMinTimestamp` even at
the far end of the clock range. -/
theorem DBWithTTL.filter_keeps_when_ttl_negative_witness :
    (-1 : Int) < 0 ∧
    DBWithTTL.Filter (-1) (DBWithTTL.AppendTS [] DBWithTTL.kMinTimestamp)
      (some DBWithTTL.kMaxTimestamp) = false :=
  ⟨by decide,
    DBWithTTL.filter_keeps_when_ttl_negative (-1)
      (DBWithTTL.AppendTS [] DBWithTTL.kMinTimestamp)
      (some DBWithTTL.kMaxTimestamp) (by decide)⟩

/-- Claim C4: the codec round-trips: stripping the timestamp from an appended
value restores the original bytes, and decoding it restores the timestamp,
for every timestamp in the valid window. -/
theorem DBWithTTL.codec_roundtrip (v : List Nat) (t : Int)
    (hmin : DBWithTTL.kMinTimestamp ≤ t) (hmax : t ≤ DBWithTTL.kMaxTimestamp) :
    DBWithTTL.StripTS (DBWithTTL.AppendTS v t) = v ∧
    DBWithTTL.DecodeTS (DBWithTTL.AppendTS v t) = t :=
  ⟨stripTS_appendTS v t,
    decodeTS_appendTS v t
      (by unfold DBWithTTL.kMinTimestamp at hmin; omega)
      (by unfold DBWithTTL.kMaxTimestamp at hmax; omega)⟩

/-- Witness for C4 at `v = [7, 7]`, `t = kMinTimestamp`. -/
theorem DBWithTTL.codec_roundtrip_witness :
    DBWithTTL.kMinTimestamp ≤ (1368146402 : Int) ∧
    (1368146402 : Int) ≤ DBWithTTL.kMaxTimestamp ∧
    (DBWithTTL.StripTS (DBWithTTL.AppendTS [7, 7] 1368146402) = [7, 7] ∧
      DBWithTTL.DecodeTS (DBWithTTL.AppendTS [7, 7] 1368146402) = 1368146402) :=
  ⟨by decide, by decide,
    DBWithTTL.codec_roundtrip [7, 7] 1368146402 (by decide) (by decide)⟩

/-- Claim C5: timestamp validation fails exactly when the string is shorter
than 4 bytes or its decoded trailing timestamp lies outside
`[1368146402, 2147483647]`. -/
theorem DBWithTTL.sanityCheckTimestamp_fails_iff (str : List Nat) :
    DBWithTTL.SanityCheckTimestamp str = false ↔
      (str.length < 4 ∨ DBWithTTL.DecodeTS str < 1368146402 ∨
        2147483647 < DBWithTTL.DecodeTS str) := by
  have : DBWithTTL.SanityCheckTimestamp str = false ↔
      ¬ (4 ≤ str.length ∧ 1368146402 ≤ DBWithTTL.DecodeTS str ∧
        DBWithTTL.DecodeTS str ≤ 2147483647) := by
    unfold DBWithTTL.SanityCheckTimestamp DBWithTTL.kTSLength
      DBWithTTL.kMinTimestamp DBWithTTL.kMaxTimestamp
    rw [Bool.eq_false_iff]
    simp [and_assoc]
  rw [this]
  omega

/-- Claim C2: a successful TTL merge (current time available) strips the
4-byte timestamps from the operand and from the existing value when present,
applies the user merge operator to the stripped payloads, and appends the
encoding of the merge's own invocation time `now` — never the operand
timestamps `t1`, `t2`. -/
theorem TtlMergeOperator.merge_restamps_with_invocation_time
    (user_merge_op : Option (List Nat) → List Nat → List Nat)
    (existing : Option (List Nat × Int)) (v1 : List Nat) (t1 now : Int) :
    TtlMergeOperator.Merge user_merge_op
        (existing.map fun p => DBWithTTL.AppendTS p.1 p.2)
        (DBWithTTL.AppendTS v1 t1) (some now) =
      { aborted := false
        newValue := user_merge_op (existing.map Prod.fst) v1 ++
          EncodeFixed32 (uint32OfInt now) } := by
  have hlen : ∀ (w : List Nat) (u : Int),
      decide ((DBWithTTL.AppendTS w u).length < DBWithTTL.kTSLength) = false := by
    intro w u
    rw [appendTS_length]
    exact decide_eq_false (by unfold DBWithTTL.kTSLength; omega)
  cases existing with
  | none =>
      unfold TtlMergeOperator.Merge
      simp only [Option.map_none', take_sub_four_appendTS, hlen, Bool.or_self]
  | some p =>
      unfold TtlMergeOperator.Merge
      simp only [Option.map_some', take_sub_four_appendTS, hlen, Bool.or_self]

/-- Claim C7: a merge operand shorter than the 4-byte timestamp reaches
`assert(false)` — a debug-build process abort — and the `void`-returning
`Merge` signals no failure to the engine. Evaluated at the concrete failing
input: no existing value, operand `[0, 1, 2]`, clock available. -/
theorem TtlMergeOperator.merge_short_operand_reaches_assert :
    (TtlMergeOperator.Merge (fun _ v => v) none [0, 1, 2]
      (some 1368146402)).aborted = true := by
  decide

/-- Claim C9: when reading the current time fails, `Merge` still stores the
user merge operator's result into `new_value` but appends no timestamp suffix
(the second `assert(false)` is reached on the way), so the returned result is
exactly the unstamped user payload. -/
theorem TtlMergeOperator.merge_clock_failure_returns_unstamped_result
    (user_merge_op : Option (List Nat) → List Nat → List Nat)
    (existing : Option (List Nat × Int)) (v1 : List Nat) (t1 : Int) :
    TtlMergeOperator.Merge user_merge_op
        (existing.map fun p => DBWithTTL.AppendTS p.1 p.2)
        (DBWithTTL.AppendTS v1 t1) none =
      { aborted := true, newValue := user_merge_op (existing.map Prod.fst) v1 } := by
  cases existing with
  | none =>
      unfold TtlMergeOperator.Merge
      simp only [Option.map_none', take_sub_four_appendTS]
  | some p =>
      unfold TtlMergeOperator.Merge
      simp only [Option.map_some', take_sub_four_appendTS]

/-- Claim C8: replaying any sequence of positioning requests through the
`TtlIterator` wrapper lands the underlying cursor in exactly the state the
same sequence produces on the bare cursor, and the wrapper's `Valid`, `key`
and `status` observations agree with the bare cursor's there: pure
delegation, no added state. -/
theorem TtlIterator.delegates_positioning_to_underlying
    {σ ε : Type} (iter : IterOps σ ε) (s : σ) (ops : List CursorOp) :
    TtlIterator.runOps iter s ops = iter.runOps s ops ∧
    TtlIterator.Valid iter (TtlIterator.runOps iter s ops) =
      iter.Valid (iter.runOps s ops) ∧
    TtlIterator.key iter (TtlIterator.runOps iter s ops) =
      iter.key (iter.runOps s ops) ∧
    TtlIterator.status iter (TtlIterator.runOps iter s ops) =
      iter.status (iter.runOps s ops) := by
  have hrun : ∀ st : σ, TtlIterator.runOps iter st ops = iter.runOps st ops := by
    induction ops with
    | nil => intro st; rfl
    | cons op rest ih =>
        intro st
        cases op <;>
          simp only [TtlIterator.runOps, IterOps.runOps, TtlIterator.applyOp,
            IterOps.applyOp, TtlIterator.SeekToFirst, TtlIterator.SeekToLast,
            TtlIterator.Seek, TtlIterator.Next, TtlIterator.Prev, ih]
  refine ⟨hrun s, ?_, ?_, ?_⟩ <;> rw [hrun s] <;> rfl

theorem decodeFixed32From_of_four_le (v : List Nat) (h : 4 ≤ v.length) :
    decodeFixed32From v (v.length - 4) =
      some (DecodeFixed32 (v.drop (v.length - 4))) := by
  have hlen : (v.drop (v.length - 4)).length = 4 := by
    rw [List.length_drop]
    omega
  rcases hd : v.drop (v.length - 4) with _ | ⟨b0, _ | ⟨b1, _ | ⟨b2, _ | ⟨b3, tail⟩⟩⟩⟩ <;>
      rw [hd] at hlen <;>
      simp only [List.length_cons, List.length_nil] at hlen <;>
      try omega
  have htail : tail = [] := List.eq_nil_of_length_eq_zero (by omega)
  subst htail
  have hget : ∀ k : Nat, v.get? (v.length - 4 + k) = [b0, b1, b2, b3].get? k := by
    intro k
    rw [← hd, List.get?_drop]
  have h0 : v.get? (v.length - 4) = some b0 := by
    have := hget 0
    rwa [Nat.add_zero] at this
  have h1 : v.get? (v.length - 4 + 1) = some b1 := hget 1
  have h2 : v.get? (v.length - 4 + 2) = some b2 := hget 2
  have h3 : v.get? (v.length - 4 + 3) = some b3 := hget 3
  unfold decodeFixed32From
  rw [h0, h1, h2, h3]
  rfl

/-- Claim C10: `TtlIterator::timestamp` performs the raw 4-byte read with no
length validation; under the precondition that the underlying value is at
least 4 bytes long, every byte read is in range (the `none` branch of the
embedded read is unreachable) and the result is the decoded trailing
timestamp of the underlying value. -/
theorem TtlIterator.timestamp_defined_of_four_le
    {σ ε : Type} (iter : IterOps σ ε) (s : σ)
    (h : 4 ≤ (iter.value s).length) :
    TtlIterator.timestamp iter s =
      some (DBWithTTL.DecodeTS (iter.value s)) := by
  unfold TtlIterator.timestamp
  have hk : DBWithTTL.kTSLength = 4 := rfl
  rw [hk, decodeFixed32From_of_four_le (iter.value s) h]
  rfl

/-- A concrete underlying cursor over a single-state type whose current value
is the 4-byte string `[10, 20, 30, 40]`, used to witness the iterator
claims at an explicit input. -/
def constIter : IterOps Unit Unit where
  Valid := fun _ => true
  SeekToFirst := fun s => s
  SeekToLast := fun s => s
  Seek := fun _ s => s
  Next := fun s => s
  Prev := fun s => s
  key := fun _ => []
  value := fun _ => [10, 20, 30, 40]
  status := fun _ => ()

/-- Witness for C10: on a cursor whose value is exactly 4 bytes, `timestamp`
returns the decoded trailing timestamp. -/
theorem TtlIterator.timestamp_defined_of_four_le_witness :
    4 ≤ (constIter.value ()).length ∧
    TtlIterator.timestamp constIter () =
      some (DBWithTTL.DecodeTS (constIter.value ())) :=
  ⟨by decide, TtlIterator.timestamp_defined_of_four_le constIter () (by decide)⟩
